import Mathlib

/-!
Verification development for the image-optimizer content-pipeline plugin.

The JavaScript sources are shallowly embedded as executable Lean
definitions:

* `JVal` / `Obj` model JavaScript attribute objects (string/number
  values, insertion-ordered keys, object-spread merge semantics).
* `splitPath` / `normComps` / `renderAbs` model `node:path` resolution
  on absolute bases; `resolvePublicPath` embeds `src/utils.js`.
* `CacheModel` with `cacheSet` / `cacheGet` / `cacheHas` / `cacheDelete`
  embeds `src/cache.js` (`Cache`), with `Date.now()` passed explicitly.
* `ImageProcessor.process` from `src/processor.js` is embedded by
  `process`, with the filesystem / `sharp` metadata supplied as an
  environment function `fs : String → Option FileInfo`.
* `processImage` / `processNode` / `processContent` embed the traversal
  of `src/plugin.js` (`ImageOptimizerPlugin`).  The JavaScript control
  flow is fully sequential (every promise is awaited before the next
  node is visited), so the pass is modelled as explicit state passing.
* `validateOptions` embeds the construction-time validation from
  `src/utils.js`.
-/

/-- A JavaScript attribute value: the documents the plugin rewrites carry
string and number attribute values. -/
inductive JVal where
  | str : String → JVal
  | num : Int → JVal
deriving DecidableEq, Repr

/-- JavaScript truthiness of an attribute value: empty strings and zero
are falsy. -/
def JVal.truthy : JVal → Bool
  | .str s => s ≠ ""
  | .num n => n ≠ 0

/-- A JavaScript object of attributes: an insertion-ordered association
list of key/value pairs with unique keys. -/
def Obj : Type := List (String × JVal)

instance : DecidableEq Obj := by unfold Obj; infer_instance

/-- Property lookup `o[k]`: first (unique) binding of the key. -/
def objGet : Obj → String → Option JVal
  | [], _ => none
  | (k, v) :: rest, key => if k = key then some v else objGet rest key

/-- Property update `o[k] = v`: replaces the binding in place when the key
exists (JavaScript objects keep the original insertion position), else
appends it. -/
def objSet : Obj → String → JVal → Obj
  | [], k, v => [(k, v)]
  | (k0, v0) :: rest, k, v =>
      if k0 = k then (k, v) :: rest else (k0, v0) :: objSet rest k v

/-- Object spread `\x7b...a, ...b\x7d`: the bindings of `b` overlaid onto `a`,
the later binding winning. -/
def objMerge (a b : Obj) : Obj :=
  b.foldl (fun acc kv => objSet acc kv.1 kv.2) a

/-! ## Path resolution (`node:path` on absolute bases, `src/utils.js`) -/

/-- Splitting a character list on a separator character. -/
def splitCharsOn (sep : Char) : List Char → List Char → List String
  | [], acc => [String.mk acc.reverse]
  | c :: rest, acc =>
      if c = sep then String.mk acc.reverse :: splitCharsOn sep rest []
      else splitCharsOn sep rest (c :: acc)

/-- Splitting a string on a separator character (structural counterpart
of `String.splitOn` for a one-character separator). -/
def splitOnChar (sep : Char) (s : String) : List String :=
  splitCharsOn sep s.data []

/-- Joining strings with a separator (counterpart of
`Array.prototype.join` / `String.intercalate`). -/
def joinSep (sep : String) : List String → String
  | [] => ""
  | [x] => x
  | x :: y :: rest => x ++ sep ++ joinSep sep (y :: rest)

/-- Decimal rendering of a natural number, digit by digit (counterpart of
JavaScript number-to-string conversion for the integers arising here). -/
def natStr (n : Nat) : String :=
  String.mk (Nat.toDigits 10 n)

/-- Whether a string starts with the path separator (counterpart of
`src.startsWith("/")`). -/
def startsWithSep (s : String) : Bool :=
  match s.data with
  | c :: _ => c = '/'
  | [] => false

/-- The string without its first `n` characters (counterpart of
`src.slice(n)` for the ASCII paths arising here). -/
def strDrop (s : String) (n : Nat) : String :=
  String.mk (s.data.drop n)

/-- Path components of a string: split on the separator, dropping empty
components (leading separator, doubled separators, trailing separator). -/
def splitPath (s : String) : List String :=
  (splitOnChar '/' s).filter (fun c => c ≠ "")

/-- Normalisation of a component sequence against an already-normalised
accumulator, as `path.resolve` does on an absolute base: `.` is dropped,
`..` pops the last accumulated component (a no-op at the root). -/
def normComps (acc : List String) : List String → List String
  | [] => acc
  | c :: rest =>
      if c = "." then normComps acc rest
      else if c = ".." then normComps acc.dropLast rest
      else normComps (acc ++ [c]) rest

/-- Rendering of an absolute path from its components. -/
def renderAbs (comps : List String) : String :=
  "/" ++ joinSep "/" comps

/-- Embeds `resolvePublicPath` of `src/utils.js`.  A source starting with
the separator resolves as `resolve(context.resourcePath, "..", "public",
src.slice(1))`; any other source resolves as
`resolve(dirname(context.currentFile), src)`.  `path.resolve` processes
its arguments right to left and stops at the first absolute one: when
`src` begins with a doubled separator, `src.slice(1)` is itself absolute
and is returned (normalised) directly, ignoring the public root;
otherwise the context paths are absolute and `resolve` reduces to
concatenating and normalising the component sequences. -/
structure Ctx where
  resourcePath : String
  currentFile : String
deriving DecidableEq, Repr

def resolvePublicPath (src : String) (ctx : Ctx) : String :=
  if startsWithSep src then
    if startsWithSep (strDrop src 1) then
      renderAbs (normComps [] (splitPath (strDrop src 1)))
    else
      renderAbs (normComps [] (splitPath ctx.resourcePath ++ ["..", "public"]
        ++ splitPath (strDrop src 1)))
  else
    renderAbs (normComps [] ((splitPath ctx.currentFile).dropLast ++ splitPath src))

/-! ## TimedCache (`src/cache.js`) -/

/-- A stored cache entry: the cached value with the `Date.now()` timestamp
recorded by `Cache.set` (the field the spec calls `createdAt`). -/
structure CEntry (α : Type) where
  value : α
  timestamp : Nat
deriving DecidableEq, Repr

/-- State of one `Cache` instance: the underlying keyed store, the private
live-entry counter `#size`, and the construction-time `#ttl`. -/
structure CacheModel (α : Type) where
  store : List (String × CEntry α)
  size : Int
  ttl : Nat
deriving DecidableEq, Repr

def assocGet {α : Type} : List (String × CEntry α) → String → Option (CEntry α)
  | [], _ => none
  | (k, e) :: rest, key => if k = key then some e else assocGet rest key

def assocSet {α : Type} : List (String × CEntry α) → String → CEntry α →
    List (String × CEntry α)
  | [], k, e => [(k, e)]
  | (k0, e0) :: rest, k, e =>
      if k0 = k then (k, e) :: rest else (k0, e0) :: assocSet rest k e

def assocDelete {α : Type} : List (String × CEntry α) → String →
    List (String × CEntry α)
  | [], _ => []
  | (k0, e0) :: rest, k =>
      if k0 = k then rest else (k0, e0) :: assocDelete rest k

/-- Embeds `Cache.set` for a valid (non-null, non-empty) key: persists the
value with the current timestamp and increments the live counter.  The
counter increments even when the key overwrites an existing entry, exactly
as `this.#size++` does. -/
def cacheSetRaw {α : Type} (c : CacheModel α) (now : Nat) (k : String)
    (v : α) : CacheModel α :=
  { c with store := assocSet c.store k ⟨v, now⟩, size := c.size + 1 }

/-- Embeds `Cache.set` as called from JavaScript, where the key may be
`null` (modelled as `none`) or empty.  Modelled from the spec: the
underlying Keyv store — an external dependency whose code is not part of
this repository — fails with `InvalidKeyError` when the key is null or
empty (the repository's own test suite asserts that `cache.set(null, v)`
rejects); `this.#size++` runs only after the awaited store write
succeeds, so a rejected write stores nothing and leaves the counter
unchanged. -/
def cacheSet {α : Type} (c : CacheModel α) (now : Nat) (key : Option String)
    (v : α) : Except String (CacheModel α) :=
  match key with
  | none => .error "InvalidKeyError"
  | some k =>
      if k = "" then .error "InvalidKeyError"
      else .ok (cacheSetRaw c now k v)

/-- Embeds `Cache.#isExpired`: `Date.now() - timestamp > this.#ttl`. -/
def isExpired {α : Type} (c : CacheModel α) (now ts : Nat) : Bool :=
  now - ts > c.ttl

/-- Embeds `Cache.delete`: reports whether an entry was removed and
decrements the counter only in that case. -/
def cacheDelete {α : Type} (c : CacheModel α) (k : String) :
    Bool × CacheModel α :=
  match assocGet c.store k with
  | some _ => (true, { c with store := assocDelete c.store k, size := c.size - 1 })
  | none => (false, c)

/-- Embeds `Cache.get`: absent on a missing entry; on an expired entry
(`now - timestamp > ttl`) deletes it as a side effect and returns absent;
otherwise returns the stored value. -/
def cacheGet {α : Type} (c : CacheModel α) (now : Nat) (k : String) :
    Option α × CacheModel α :=
  match assocGet c.store k with
  | none => (none, c)
  | some e =>
      if isExpired c now e.timestamp then (none, (cacheDelete c k).2)
      else (some e.value, c)

/-- Embeds `Cache.has`: `(await this.get(key)) !== null`, sharing `get`'s
expiry check and its deletion side effect. -/
def cacheHas {α : Type} (c : CacheModel α) (now : Nat) (k : String) :
    Bool × CacheModel α :=
  let r := cacheGet c now k
  (r.1.isSome, r.2)

/-- Embeds `Cache.clear`: removes all entries and resets the counter. -/
def cacheClear {α : Type} (c : CacheModel α) : CacheModel α :=
  { c with store := [], size := 0 }

/-! ## ImageProcessor (`src/processor.js`) -/

/-- One entry of the configured `sizes` list at runtime:
`\x7bwidth, suffix\x7d`. -/
structure SizeSpec where
  width : Nat
  suffix : String
deriving DecidableEq, Repr

/-- The merged plugin options as used at runtime by `ImageProcessor` and
`ImageOptimizerPlugin` (quality and concurrency influence only encoder
settings and scheduling, not the computed attributes). -/
structure RunOptions where
  outputDir : String
  publicPath : String
  formats : List String
  quality : Nat
  sizes : List SizeSpec
  concurrency : Nat
deriving DecidableEq, Repr

/-- What `fileTypeFromFile` and `sharp(...).metadata()` report for an
existing source file: the detected extension and the native pixel
dimensions. -/
structure FileInfo where
  ext : String
  width : Nat
  height : Nat
deriving DecidableEq, Repr

/-- One generated variant as returned by `ImageProcessor.#createVariant`. -/
structure Variant where
  width : Nat
  height : Nat
  format : String
  path : String
  url : String
deriving DecidableEq, Repr

/-- Rounding half up of the quotient `a / b` over the naturals:
`Math.round((a : number) / b)` for the non-negative exact values arising
here. -/
def jsRoundDiv (a b : Nat) : Nat :=
  (2 * a + b) / (2 * b)

/-- The `name` field of `path.parse`: the final path component with its
extension removed. -/
def parseName (p : String) : String :=
  let base := (splitPath p).getLastD ""
  let parts := splitOnChar '.' base
  if parts.length ≤ 1 then base else joinSep "." parts.dropLast

/-- Embeds `ImageProcessor.#createVariant`: the variant width is the
requested width clamped to the source width, the height scales
proportionally and is rounded (`Math.round`), and the file name is
`name-suffix.format` under the output directory with the URL under the
configured public path. -/
def createVariant (opts : RunOptions) (meta : FileInfo) (name : String)
    (size : SizeSpec) (format : String) (outputDir : String) : Variant :=
  let width := min size.width meta.width
  let height := jsRoundDiv (meta.height * width) meta.width
  let filename := name ++ "-" ++ size.suffix ++ "." ++ format
  { width := width
    height := height
    format := format
    path := outputDir ++ "/" ++ filename
    url := opts.publicPath ++ "/" ++ filename }

/-- Embeds `ImageProcessor.#generateVariants`: one variant per configured
size (outer loop) and format (inner loop), in order. -/
def generateVariants (opts : RunOptions) (meta : FileInfo) (name : String)
    (outputDir : String) : List Variant :=
  opts.sizes.flatMap (fun size =>
    opts.formats.map (fun format =>
      createVariant opts meta name size format outputDir))

/-- Embeds `ImageProcessor.#generateSrcset`: `url widthw` pairs joined
with a comma. -/
def generateSrcset (variants : List Variant) : String :=
  joinSep ", "
    (variants.map (fun v => v.url ++ " " ++ natStr v.width ++ "w"))

/-- Embeds `ImageProcessor.#generateSizes`: a fixed breakpoint list
rendered into a `sizes` attribute. -/
def generateSizes : String :=
  joinSep ", "
    (([(640, "100vw"), (1024, "50vw"), (1920, "33vw")].map
      (fun bp : Nat × String =>
        "(max-width: " ++ natStr bp.1 ++ "px) " ++ bp.2))
      ++ ["100vw"])

/-- The record returned by `ImageProcessor.process`. -/
structure ProcResult where
  srcset : String
  sizes : String
  width : Nat
  height : Nat
  format : String
  variants : List Variant
deriving DecidableEq, Repr

/-- Embeds `ImageProcessor.process`.  The external collaborators are
supplied as `fs`: `fs path = none` models a source file that cannot be
read (`fileTypeFromFile` rejects with an `ENOENT` error), and an
unsupported detected extension raises `Unsupported image type` exactly as
the source does. -/
def process (fs : String → Option FileInfo) (opts : RunOptions)
    (imagePath outputDir : String) : Except String ProcResult :=
  match fs imagePath with
  | none => .error ("ENOENT: no such file or directory, open " ++ imagePath)
  | some info =>
      if (["jpg", "jpeg", "png", "webp", "avif"].contains info.ext : Bool) then
        let name := parseName imagePath
        let variants := generateVariants opts info name outputDir
        .ok { srcset := generateSrcset variants
              sizes := generateSizes
              width := info.width
              height := info.height
              format := info.ext
              variants := variants }
      else
        .error ("Unsupported image type: "
          ++ (if info.ext = "" then "unknown" else info.ext))

/-! ## ImageOptimizerPlugin (`src/plugin.js`) -/

/-- A document node `\x7btype, attrs?, content?\x7d`.  The plugin reads
`type` / `attrs` / `content` and writes only into `attrs`; a missing or
empty `content` array behaves identically in the traversal loop, so
children are a plain list. -/
inductive Node where
  | mk (type : String) (attrs : Option Obj) (content : List Node)

def Node.type : Node → String
  | .mk t _ _ => t

def Node.attrs : Node → Option Obj
  | .mk _ a _ => a

def Node.content : Node → List Node
  | .mk _ _ c => c

/-- Embeds `isImageNode` of `src/utils.js`:
`node.type === "image" && node.attrs?.src` (truthily). -/
def isImageNode (n : Node) : Bool :=
  n.type = "image" &&
    (match n.attrs with
     | some a => (objGet a "src").elim false JVal.truthy
     | none => false)

/-- The plugin-instance state threaded through one or more passes: the
`#cache` contents, the process-lifetime `#processed` source set, the
count of `ImageProcessor.process` invocations (the external transcoder
calls; the model's observability counter for the dedup claims), and the
`context.errors` collector of recorded per-image failure messages. -/
structure St where
  cache : CacheModel Obj
  processed : List String
  procCount : Nat
  errors : List String
deriving DecidableEq

/-- The external environment of a pass: the filesystem as seen by
`fileTypeFromFile` / `sharp`, the merged options, and the (constant)
`Date.now()` of the pass. -/
structure Env where
  fs : String → Option FileInfo
  opts : RunOptions
  now : Nat

/-- The output directory used by the queued job:
`join(context.resourcePath, "..", this.options.outputDir)`. -/
def outDirOf (ctx : Ctx) (opts : RunOptions) : String :=
  renderAbs (normComps [] (splitPath ctx.resourcePath ++ [".."]
    ++ splitPath opts.outputDir))

/-- Embeds `ImageOptimizerPlugin.#processImage`.  The JavaScript method
destructures `src`, returns early when `src` is falsy or already in the
process-lifetime `#processed` set, otherwise resolves the path, consults
the cache (merging the cached object over the node's attributes on a
hit), and on a miss runs the queued job: invoke `ImageProcessor.process`
(counted by `procCount`), build the merged attribute object, store it in
the cache, mark the source processed, and install it on the node.  Any
failure is caught and recorded as
`Failed to process image \x7bsrc\x7d: \x7bdetail\x7d`.  Every promise is
awaited in place, so the method is modelled as a pure state transformer;
documents carry string-valued `src` attributes. -/
def processImage (env : Env) (ctx : Ctx) (node : Node) (st : St) :
    Node × St :=
  match node.attrs with
  | none => (node, st)
  | some a =>
      match objGet a "src" with
      | some (JVal.str src) =>
          if src = "" || st.processed.contains src then (node, st)
          else
            let imagePath := resolvePublicPath src ctx
            let cacheKey := "image:" ++ imagePath
            let hasR := cacheHas st.cache env.now cacheKey
            let st1 : St := { st with cache := hasR.2 }
            if hasR.1 then
              let getR := cacheGet st1.cache env.now cacheKey
              match getR.1 with
              | some cachedData =>
                  (Node.mk node.type (some (objMerge a cachedData)) node.content,
                   { st1 with cache := getR.2 })
              | none => (node, { st1 with cache := getR.2 })
            else
              let st2 : St := { st1 with procCount := st1.procCount + 1 }
              match process env.fs env.opts imagePath (outDirOf ctx env.opts) with
              | .ok r =>
                  let attrs := objMerge a
                    [("srcset", .str r.srcset), ("sizes", .str r.sizes),
                     ("width", .num r.width), ("height", .num r.height),
                     ("originalSrc", .str src)]
                  let st3 : St :=
                    { st2 with
                        cache := cacheSetRaw st2.cache env.now cacheKey attrs
                        processed := st2.processed ++ [src] }
                  (Node.mk node.type (some attrs) node.content, st3)
              | .error detail =>
                  (node,
                   { st2 with errors := st2.errors
                      ++ ["Failed to process image " ++ src ++ ": " ++ detail] })
      | _ => (node, st)

mutual

/-- Embeds `ImageOptimizerPlugin.#processNode`: process the node itself
when it is an image node, then recurse into its children in order
(`#processImage` never touches `content`, so the loop runs over the
node's original child list). -/
def processNode (env : Env) (ctx : Ctx) : Node → St → Node × St
  | Node.mk t a cs, st =>
      let r1 := if isImageNode (Node.mk t a cs)
        then processImage env ctx (Node.mk t a cs) st
        else (Node.mk t a cs, st)
      let r2 := processNodes env ctx cs r1.2
      (Node.mk t r1.1.attrs r2.1, r2.2)

def processNodes (env : Env) (ctx : Ctx) : List Node → St → List Node × St
  | [], st => ([], st)
  | n :: ns, st =>
      let r1 := processNode env ctx n st
      let r2 := processNodes env ctx ns r1.2
      (r1.1 :: r2.1, r2.2)

end

/-- Embeds `ImageOptimizerPlugin.processContent`: a null content value or
a root whose type is not `doc` is returned untouched; otherwise the tree
is traversed (the surrounding try/catch is unreachable in the model
because the per-image handler already catches every per-image failure). -/
def processContent (env : Env) (ctx : Ctx) (content : Option Node) (st : St) :
    Option Node × St :=
  match content with
  | none => (none, st)
  | some n =>
      if n.type = "doc" then
        let r := processNode env ctx n st
        (some r.1, r.2)
      else (some n, st)

/-! ## Option validation (`validateOptions` in `src/utils.js`) -/

instance instDecEqExcept {ε α : Type} [DecidableEq ε] [DecidableEq α] :
    DecidableEq (Except ε α) := fun x y =>
  match x, y with
  | .ok a, .ok b =>
      if h : a = b then isTrue (by rw [h]) else isFalse (by simp [h])
  | .error e, .error f =>
      if h : e = f then isTrue (by rw [h]) else isFalse (by simp [h])
  | .ok _, .error _ => isFalse (by simp)
  | .error _, .ok _ => isFalse (by simp)

/-- One raw entry of the configured `sizes` list as validated: either
field may be missing (`none`); widths are JavaScript numbers, so
non-integer values are representable. -/
structure SizeOpt where
  width : Option ℚ
  suffix : Option String
deriving DecidableEq, Repr

/-- The merged options object as seen by `validateOptions` (constructor
defaults already applied; a field is `none` when explicitly passed as
`undefined`).  `cacheTimeout` is part of the configuration surface but is
never destructured by `validateOptions`. -/
structure Options where
  outputDir : String
  publicPath : String
  formats : List String
  quality : Option ℚ
  sizes : Option (List SizeOpt)
  concurrency : Option ℚ
  cacheTimeout : Option ℚ
deriving DecidableEq, Repr

/-- JavaScript truthiness of an optional number (`!size.width`). -/
def truthyNumOpt : Option ℚ → Bool
  | none => false
  | some q => q ≠ 0

/-- JavaScript truthiness of an optional string (`!size.suffix`). -/
def truthyStrOpt : Option String → Bool
  | none => false
  | some s => s ≠ ""

/-- The `sizes.forEach` validation loop: the first offending entry
throws. -/
def checkSizes : List SizeOpt → Except String Unit
  | [] => .ok ()
  | s :: rest =>
      if !truthyNumOpt s.width || !truthyStrOpt s.suffix then
        .error "Each size must have width and suffix"
      else
        match s.width with
        | some w =>
            if w < 1 then .error "Size width must be a positive number"
            else checkSizes rest
        | none => .error "Each size must have width and suffix"

/-- The optional `quality` check: a numeric quality outside 1..100
throws (non-integer numbers inside the range pass). -/
def checkQuality : Option ℚ → Except String Unit
  | none => .ok ()
  | some q =>
      if q < 1 ∨ q > 100 then .error "Quality must be a number between 1 and 100"
      else .ok ()

/-- The optional `concurrency` check: a numeric concurrency below 1
throws. -/
def checkConcurrency : Option ℚ → Except String Unit
  | none => .ok ()
  | some c =>
      if c < 1 then .error "Concurrency must be a positive number"
      else .ok ()

/-- Embeds `validateOptions` of `src/utils.js`: required non-empty
`outputDir` / `publicPath`, a non-empty `formats` list drawn from the
allowed set, then the optional `quality`, `sizes` and `concurrency`
checks in source order.  The typeof checks of the source collapse in
this typed model; `cacheTimeout` is never examined. -/
def validateOptions (o : Options) : Except String Unit :=
  if o.outputDir = "" then .error "outputDir is required"
  else if o.publicPath = "" then .error "publicPath is required"
  else if o.formats.isEmpty then .error "At least one output format is required"
  else
    let validFormats := ["webp", "avif", "jpeg", "png"]
    let invalidFormats := o.formats.filter (fun f => !validFormats.contains f)
    if !invalidFormats.isEmpty then
      .error ("Invalid formats: " ++ joinSep ", " invalidFormats)
    else do
      checkQuality o.quality
      match o.sizes with
      | some l => checkSizes l
      | none => pure ()
      checkConcurrency o.concurrency

/-! ## Derived notions used to state the claims -/

/-- The public root that `resourcePath` determines: the directory `public`
next to (in the parent of) the resource path, as
`resolve(resourcePath, "..", "public")` computes it. -/
def publicRootComps (resourcePath : String) : List String :=
  normComps [] (splitPath resourcePath ++ ["..", "public"])

/-- The components of the directory containing a file
(`dirname(currentFile)`). -/
def dirComps (file : String) : List String :=
  (splitPath file).dropLast

/-- Rounding half up over the rationals: the specification's
`round(h * min(t, w) / w)`, i.e. JavaScript `Math.round` on the
non-negative exact values arising here. -/
def specRound (q : ℚ) : ℤ :=
  ⌊q + 1 / 2⌋

/-- The source attribute `#processImage` would act on: the string `src`
of an image node (in the `isImageNode` sense), when there is one. -/
def srcOfImage (n : Node) : Option String :=
  if isImageNode n then
    match n.attrs with
    | some a =>
        match objGet a "src" with
        | some (JVal.str s) => some s
        | _ => none
    | none => none
  else none

mutual

/-- All image-node source strings occurring in a tree, in visit order. -/
def imageSrcs : Node → List String
  | Node.mk t a cs =>
      (match srcOfImage (Node.mk t a cs) with
       | some s => [s]
       | none => []) ++ imageSrcsList cs

def imageSrcsList : List Node → List String
  | [] => []
  | n :: ns => imageSrcs n ++ imageSrcsList ns

end

/-! ## Concrete fixtures for witnesses and counterexamples -/

/-- The options of the repository's own plugin test: webp only, quality
80, one 640-wide size. -/
def sampleOpts : RunOptions :=
  { outputDir := ".image-cache", publicPath := "/images",
    formats := ["webp"], quality := 80,
    sizes := [⟨640, "sm"⟩], concurrency := 4 }

/-- A filesystem with one public image and one image next to the current
document, both 1920×1080 JPEGs. -/
def sampleFs : String → Option FileInfo := fun p =>
  if p = "/site/public/test.jpg" then some ⟨"jpg", 1920, 1080⟩
  else if p = "/site/pages/home/a.jpg" then some ⟨"jpg", 1920, 1080⟩
  else none

def sampleEnv : Env :=
  { fs := sampleFs, opts := sampleOpts, now := 1000 }

def sampleCtx : Ctx :=
  { resourcePath := "/site/pages", currentFile := "/site/pages/home/content.md" }

/-- A fresh plugin instance: empty cache (one-week TTL, the source's
default), empty processed set, no transcoder invocations, no errors. -/
def initialSt : St :=
  { cache := { store := [], size := 0, ttl := 604800000 },
    processed := [], procCount := 0, errors := [] }

def emptyNode : Node := Node.mk "" none []

/-- The attributes of the i-th child of a document, for inspecting pass
results. -/
def childAttrs (doc : Option Node) (i : Nat) : Option Obj :=
  match doc with
  | some n => (n.content.getD i emptyNode).attrs
  | none => none

/-- An image node with source `/test.jpg` and no other attributes. -/
def imgPlain : Node := Node.mk "image" (some [("src", JVal.str "/test.jpg")]) []

/-- The spec's concrete dedup scenario: five distinct image nodes, all
with source `/test.jpg`, in one document. -/
def doc5 : Node := Node.mk "doc" none [imgPlain, imgPlain, imgPlain, imgPlain, imgPlain]

/-- One full pass over the five-node document from a fresh instance. -/
def pass1 : Option Node × St :=
  processContent sampleEnv sampleCtx (some doc5) initialSt

/-- The document produced by that pass (input to the second pass). -/
def doc5After : Option Node := pass1.1

/-- The plugin state after that pass. -/
def st5After : St := pass1.2

/-- A document whose first image references a missing file and whose
second image is processable. -/
def docFailGood : Node :=
  Node.mk "doc" none
    [Node.mk "image" (some [("src", JVal.str "/missing.png"), ("alt", JVal.str "M")]) [],
     imgPlain]

/-- Two image nodes whose distinct `src` strings resolve to the same
file: `a.jpg` and `./a.jpg` relative to the current document. -/
def docAlias : Node :=
  Node.mk "doc" none
    [Node.mk "image" (some [("src", JVal.str "a.jpg"), ("alt", JVal.str "A")]) [],
     Node.mk "image" (some [("src", JVal.str "./a.jpg"), ("alt", JVal.str "B")]) []]

/-- One full pass over the aliased-source document. -/
def passAlias : Option Node × St :=
  processContent sampleEnv sampleCtx (some docAlias) initialSt

/-- The cached attribute object of the first aliased node, as the pass
stores it: the node's full original attributes plus the computed
fields. -/
def cachedAliasObj : Obj :=
  [("src", JVal.str "a.jpg"), ("alt", JVal.str "A"),
   ("srcset", JVal.str "/images/a-sm.webp 640w"),
   ("sizes", JVal.str "(max-width: 640px) 100vw, (max-width: 1024px) 50vw, (max-width: 1920px) 33vw, 100vw"),
   ("width", JVal.num 1920), ("height", JVal.num 1080),
   ("originalSrc", JVal.str "a.jpg")]

/-- A plugin state whose cache already holds the aliased entry. -/
def stWithAlias : St :=
  { cache := { store := [("image:/site/pages/home/a.jpg", ⟨cachedAliasObj, 1000⟩)],
               size := 1, ttl := 604800000 },
    processed := [], procCount := 1, errors := [] }

/-- A fully valid options object except for a negative `cacheTimeout`. -/
def optsNegTimeout : Options :=
  { outputDir := ".image-cache", publicPath := "/images",
    formats := ["webp"], quality := some 80, sizes := none,
    concurrency := none, cacheTimeout := some (-5) }

/-- A fully valid options object with the non-integer quality 50.5 and a
non-integer size width 640.5. -/
def optsNonInteger : Options :=
  { outputDir := ".image-cache", publicPath := "/images",
    formats := ["webp"], quality := some (mkRat 101 2),
    sizes := some [⟨some (mkRat 1281 2), some "sm"⟩],
    concurrency := none, cacheTimeout := none }

/-- A fully valid options object. -/
def goodOpts : Options :=
  { outputDir := ".image-cache", publicPath := "/images",
    formats := ["webp"], quality := some 80, sizes := none,
    concurrency := none, cacheTimeout := none }

/-- The result `ImageProcessor.process` returns for the sample 1920×1080
JPEG under the sample options (one 640-wide webp size). -/
def testProcResult : ProcResult :=
  { srcset := "/images/test-sm.webp 640w"
    sizes := "(max-width: 640px) 100vw, (max-width: 1024px) 50vw, (max-width: 1920px) 33vw, 100vw"
    width := 1920
    height := 1080
    format := "jpg"
    variants := [{ width := 640, height := 360, format := "webp",
                   path := "/site/.image-cache/test-sm.webp",
                   url := "/images/test-sm.webp" }] }

/-! ## Helper lemmas -/

theorem objGet_objSet_self (o : Obj) (k : String) (v : JVal) :
    objGet (objSet o k v) k = some v := by
  induction o with
  | nil => simp [objSet, objGet]
  | cons hd tl ih =>
      by_cases h : hd.1 = k
      · simp [objSet, objGet, h]
      · simp [objSet, objGet, h, ih]

theorem objGet_objSet_other (o : Obj) (k k' : String) (v : JVal)
    (hne : k' ≠ k) : objGet (objSet o k v) k' = objGet o k' := by
  have hne2 : ¬ k = k' := fun h => hne h.symm
  induction o with
  | nil => simp [objSet, objGet, hne2]
  | cons hd tl ih =>
      by_cases h : hd.1 = k
      · simp [objSet, objGet, h, hne2]
      · by_cases h2 : hd.1 = k' <;> simp [objSet, objGet, h, h2, hne, ih]

theorem objGet_objMerge_not_mem (a b : Obj) (k : String)
    (hk : k ∉ b.map Prod.fst) :
    objGet (objMerge a b) k = objGet a k := by
  induction b generalizing a with
  | nil => rfl
  | cons hd tl ih =>
      simp only [List.map_cons, List.mem_cons] at hk
      push_neg at hk
      have hstep0 : objMerge a (hd :: tl) = objMerge (objSet a hd.1 hd.2) tl := rfl
      rw [hstep0, ih _ hk.2, objGet_objSet_other a hd.1 k hd.2 hk.1]

theorem objGet_objMerge_mem (a b : Obj) (k : String)
    (hnd : (b.map Prod.fst).Nodup) (hk : k ∈ b.map Prod.fst) :
    objGet (objMerge a b) k = objGet b k := by
  induction b generalizing a with
  | nil => simp at hk
  | cons hd tl ih =>
      simp only [List.map_cons, List.nodup_cons] at hnd
      have hstep : objMerge a (hd :: tl) = objMerge (objSet a hd.1 hd.2) tl := rfl
      simp only [List.map_cons, List.mem_cons] at hk
      rcases hk with hk | hk
      · subst hk
        rw [hstep, objGet_objMerge_not_mem _ _ _ hnd.1,
          objGet_objSet_self]
        simp [objGet]
      · rw [hstep, ih _ hnd.2 hk]
        have hne : hd.1 ≠ k := fun h => hnd.1 (h ▸ hk)
        simp [objGet, hne]

theorem normComps_append (acc : List String) (l1 l2 : List String) :
    normComps acc (l1 ++ l2) = normComps (normComps acc l1) l2 := by
  induction l1 generalizing acc with
  | nil => rfl
  | cons c rest ih =>
      by_cases h1 : c = "."
      · simp [normComps, h1, ih]
      · by_cases h2 : c = ".." <;> simp [normComps, h1, h2, ih]

theorem normComps_fixed (l : List String)
    (hl : ∀ c ∈ l, c ≠ "." ∧ c ≠ "..") (acc : List String) :
    normComps acc l = acc ++ l := by
  induction l generalizing acc with
  | nil => simp [normComps]
  | cons c rest ih =>
      have hc := hl c (List.mem_cons_self c rest)
      have hrest : ∀ x ∈ rest, x ≠ "." ∧ x ≠ ".." :=
        fun x hx => hl x (List.mem_cons_of_mem c hx)
      simp [normComps, hc.1, hc.2, ih hrest]

theorem assocGet_assocSet_self {α : Type} (l : List (String × CEntry α))
    (k : String) (e : CEntry α) : assocGet (assocSet l k e) k = some e := by
  induction l with
  | nil => simp [assocSet, assocGet]
  | cons hd tl ih =>
      by_cases h : hd.1 = k
      · simp [assocSet, assocGet, h]
      · simp [assocSet, assocGet, h, ih]

/-! ## Claim theorems -/

/-- C10: for a null content value or a root whose type is not `doc`,
`processContent` returns the input unchanged and leaves the whole plugin
state (cache, processed set, transcoder-invocation count, error
collector) untouched: no error is appended and no image node is
visited. -/
theorem processContent_non_doc (env : Env) (ctx : Ctx) (content : Option Node)
    (st : St) (h : content = none ∨ ∀ n, content = some n → n.type ≠ "doc") :
    processContent env ctx content st = (content, st) := by
  cases content with
  | none => rfl
  | some n =>
      rcases h with h | h
      · exact absurd h (by simp)
      · simp [processContent, h n rfl]

/-- Witness for C10 at a null document and at a non-`doc` root. -/
theorem processContent_non_doc_witness :
    processContent sampleEnv sampleCtx none initialSt = (none, initialSt) ∧
    processContent sampleEnv sampleCtx (some (Node.mk "paragraph" none []))
      initialSt = (some (Node.mk "paragraph" none []), initialSt) :=
  ⟨processContent_non_doc sampleEnv sampleCtx none initialSt (Or.inl rfl),
   processContent_non_doc sampleEnv sampleCtx (some (Node.mk "paragraph" none []))
     initialSt
     (Or.inr (fun n hn => by injection hn with h2; rw [← h2]; decide))⟩

/-- C4: an entry set at time `T` in a cache with TTL `d` is returned by
`get` at every read time `t` with `t - T ≤ d`; at every read time with
`t - T > d`, `get` returns absent and, as a side effect, deletes the
expired entry from the underlying store (decrementing the live counter
back), with no background sweep involved. -/
theorem cache_ttl_expiry {α : Type} (c : CacheModel α) (k : String) (v : α)
    (T t : Nat) :
    (t - T ≤ c.ttl →
      cacheGet (cacheSetRaw c T k v) t k = (some v, cacheSetRaw c T k v)) ∧
    (t - T > c.ttl →
      cacheGet (cacheSetRaw c T k v) t k =
        (none, { store := assocDelete (assocSet c.store k ⟨v, T⟩) k,
                 size := c.size, ttl := c.ttl })) := by
  have hget : assocGet (cacheSetRaw c T k v).store k = some ⟨v, T⟩ :=
    assocGet_assocSet_self c.store k ⟨v, T⟩
  constructor
  · intro h
    have hexp : isExpired (cacheSetRaw c T k v) t T = false := by
      simp [isExpired, cacheSetRaw, Nat.not_lt.mpr h]
    simp [cacheGet, hget, hexp]
  · intro h
    have hget2 : assocGet (assocSet c.store k (⟨v, T⟩ : CEntry α)) k
        = some ⟨v, T⟩ := assocGet_assocSet_self c.store k ⟨v, T⟩
    simp [cacheGet, cacheSetRaw, isExpired, hget2, cacheDelete, h]

/-- Witness for C4: with TTL 100 and an entry set at time 50, the value
is still served at time 150 (the boundary) and is gone — entry deleted —
at time 151. -/
theorem cache_ttl_expiry_witness :
    cacheGet (cacheSetRaw (⟨[], 0, 100⟩ : CacheModel Nat) 50 "k" 7) 150 "k"
      = (some 7, cacheSetRaw (⟨[], 0, 100⟩ : CacheModel Nat) 50 "k" 7) ∧
    cacheGet (cacheSetRaw (⟨[], 0, 100⟩ : CacheModel Nat) 50 "k" 7) 151 "k"
      = (none, { store := assocDelete (assocSet [] "k" ⟨7, 50⟩) "k",
                 size := 0, ttl := 100 }) :=
  ⟨(cache_ttl_expiry (⟨[], 0, 100⟩ : CacheModel Nat) "k" 7 50 150).1 (by decide),
   (cache_ttl_expiry (⟨[], 0, 100⟩ : CacheModel Nat) "k" 7 50 151).2 (by decide)⟩

/-- C9: `Cache.set` on a null or empty key fails with `InvalidKeyError`
and stores nothing (the counter is untouched since the state is
discarded); on any non-empty key it persists the value with the current
timestamp and increments the live-entry counter.  The null/empty-key
rejection is the spec-modelled contract of the underlying external Keyv
store (see `cacheSet`). -/
theorem cache_set_key_validation {α : Type} (c : CacheModel α) (now : Nat)
    (v : α) :
    (∀ key : Option String, key = none ∨ key = some "" →
        cacheSet c now key v = .error "InvalidKeyError") ∧
    (∀ k : String, k ≠ "" →
        cacheSet c now (some k) v =
          .ok { store := assocSet c.store k ⟨v, now⟩, size := c.size + 1,
                ttl := c.ttl }) := by
  constructor
  · rintro key (rfl | rfl)
    · rfl
    · simp [cacheSet]
  · intro k hk
    simp [cacheSet, hk, cacheSetRaw]

/-- Witness for C9: null and empty keys are rejected; the key `img`
stores the entry and bumps the counter to 1. -/
theorem cache_set_key_validation_witness :
    cacheSet (⟨[], 0, 100⟩ : CacheModel Nat) 5 none 7 = .error "InvalidKeyError" ∧
    cacheSet (⟨[], 0, 100⟩ : CacheModel Nat) 5 (some "") 7 = .error "InvalidKeyError" ∧
    cacheSet (⟨[], 0, 100⟩ : CacheModel Nat) 5 (some "img") 7
      = .ok { store := assocSet [] "img" ⟨7, 5⟩, size := 0 + 1, ttl := 100 } :=
  ⟨(cache_set_key_validation (⟨[], 0, 100⟩ : CacheModel Nat) 5 7).1 none (Or.inl rfl),
   (cache_set_key_validation (⟨[], 0, 100⟩ : CacheModel Nat) 5 7).1 (some "") (Or.inr rfl),
   (cache_set_key_validation (⟨[], 0, 100⟩ : CacheModel Nat) 5 7).2 "img" (by decide)⟩

theorem jsRoundDiv_eq_specRound (a b : Nat) (hb : 0 < b) :
    (jsRoundDiv a b : ℤ) = specRound ((a : ℚ) / (b : ℚ)) := by
  have hbq : (b : ℚ) ≠ 0 := Nat.cast_ne_zero.mpr hb.ne'
  have h1 : (a : ℚ) / (b : ℚ) + 1 / 2
      = ((2 * a + b : ℕ) : ℚ) / ((2 * b : ℕ) : ℚ) := by
    push_cast
    field_simp
    ring
  unfold specRound jsRoundDiv
  rw [h1, Rat.floor_natCast_div_natCast]
  push_cast
  rfl

/-- C5: every generated variant arises from one configured size request
`t` and has width `min t w` for source width `w > 0`, height the
proportionally scaled source height rounded half up
(`round(h * min(t, w) / w)`), and in particular is never wider than the
source's native width. -/
theorem variant_dimensions (opts : RunOptions) (meta : FileInfo)
    (name outputDir : String) (hw : 0 < meta.width) :
    ∀ v ∈ generateVariants opts meta name outputDir,
      (∃ s ∈ opts.sizes,
        v.width = min s.width meta.width ∧
        (v.height : ℤ) = specRound ((meta.height : ℚ)
          * (min s.width meta.width : ℕ) / (meta.width : ℚ))) ∧
      v.width ≤ meta.width := by
  intro v hv
  simp only [generateVariants, List.mem_flatMap, List.mem_map] at hv
  obtain ⟨s, hs, f, _, rfl⟩ := hv
  refine ⟨⟨s, hs, rfl, ?_⟩, min_le_right _ _⟩
  show ((jsRoundDiv (meta.height * min s.width meta.width) meta.width : ℕ) : ℤ) = _
  rw [jsRoundDiv_eq_specRound _ _ hw]
  unfold specRound
  congr 1
  push_cast
  ring

/-- Witness for C5 at the spec's concrete scenario: a 1920×1080 source
with one 640-wide webp size yields exactly the variant width 640 and
height 360 (and never exceeds 1920). -/
theorem variant_dimensions_witness :
    (∀ v ∈ generateVariants sampleOpts ⟨"jpg", 1920, 1080⟩ "test" "/site/.image-cache",
       (∃ s ∈ sampleOpts.sizes,
         v.width = min s.width 1920 ∧
         (v.height : ℤ) = specRound ((1080 : ℚ) * (min s.width 1920 : ℕ) / (1920 : ℚ))) ∧
       v.width ≤ 1920) ∧
    (generateVariants sampleOpts ⟨"jpg", 1920, 1080⟩ "test" "/site/.image-cache").map
        (fun v => (v.width, v.height, v.format))
      = [(640, 360, "webp")] :=
  ⟨variant_dimensions sampleOpts ⟨"jpg", 1920, 1080⟩ "test" "/site/.image-cache"
      (by decide),
   by decide⟩

/-- Counterexample to C7: the source `//cdn/img.png` begins with the
path separator, yet it does not resolve relative to the public root that
`resourcePath` determines — `src.slice(1)` is itself an absolute path, so
`path.resolve` returns it directly (`/cdn/img.png`), while resolution
under the public root would give `/site/public/cdn/img.png`. -/
theorem resolve_public_counterexample :
    resolvePublicPath "//cdn/img.png" sampleCtx = "/cdn/img.png" ∧
    renderAbs (normComps (publicRootComps sampleCtx.resourcePath)
        (splitPath (strDrop "//cdn/img.png" 1)))
      = "/site/public/cdn/img.png" ∧
    resolvePublicPath "//cdn/img.png" sampleCtx
      ≠ renderAbs (normComps (publicRootComps sampleCtx.resourcePath)
          (splitPath (strDrop "//cdn/img.png" 1))) := by
  decide

/-- C7 as amended: a source beginning with exactly one path separator
resolves to the source interpreted relative to the public root that
`resourcePath` determines (the directory `public` in the parent of
`resourcePath`, i.e. `resolve(resourcePath, "..", "public")`); a source
beginning with a doubled separator is an absolute path after `slice(1)`,
so `path.resolve`'s right-to-left rule returns its own normalisation and
the public root is ignored; every other source resolves relative to the
directory of the context's `currentFile` (assumed, as an absolute
document path, to contain no `.`/`..` components). -/
theorem resolve_public_and_relative (src : String) (ctx : Ctx)
    (hcf : ∀ c ∈ dirComps ctx.currentFile, c ≠ "." ∧ c ≠ "..") :
    (startsWithSep src = true → startsWithSep (strDrop src 1) = false →
      resolvePublicPath src ctx
        = renderAbs (normComps (publicRootComps ctx.resourcePath)
            (splitPath (strDrop src 1)))) ∧
    (startsWithSep src = true → startsWithSep (strDrop src 1) = true →
      resolvePublicPath src ctx
        = renderAbs (normComps [] (splitPath (strDrop src 1)))) ∧
    (startsWithSep src = false →
      resolvePublicPath src ctx
        = renderAbs (normComps (dirComps ctx.currentFile) (splitPath src))) := by
  refine ⟨?_, ?_, ?_⟩
  · intro h h2
    unfold resolvePublicPath
    rw [if_pos h, if_neg (by simp [h2])]
    unfold publicRootComps
    rw [← normComps_append]
  · intro h h2
    unfold resolvePublicPath
    rw [if_pos h, if_pos h2]
  · intro h
    unfold resolvePublicPath
    rw [if_neg (by simp [h])]
    have hfix : normComps [] (dirComps ctx.currentFile)
        = dirComps ctx.currentFile := by
      simpa using normComps_fixed _ hcf []
    unfold dirComps at hfix ⊢
    rw [normComps_append, hfix]

/-- Witness for C7 (amended): with resource path `/site/pages` and
current file `/site/pages/home/content.md`, the public source
`/img/test.png` resolves under `/site/public`, the doubled-separator
source `//cdn/img.png` resolves to itself, and the relative source
`photo.jpg` resolves under `/site/pages/home`. -/
theorem resolve_public_and_relative_witness :
    (resolvePublicPath "/img/test.png" sampleCtx
      = renderAbs (normComps (publicRootComps sampleCtx.resourcePath)
          (splitPath (strDrop "/img/test.png" 1)))) ∧
    (resolvePublicPath "//cdn/img.png" sampleCtx
      = renderAbs (normComps [] (splitPath (strDrop "//cdn/img.png" 1)))) ∧
    (resolvePublicPath "photo.jpg" sampleCtx
      = renderAbs (normComps (dirComps sampleCtx.currentFile)
          (splitPath "photo.jpg"))) ∧
    resolvePublicPath "/img/test.png" sampleCtx = "/site/public/img/test.png" ∧
    resolvePublicPath "//cdn/img.png" sampleCtx = "/cdn/img.png" ∧
    resolvePublicPath "photo.jpg" sampleCtx = "/site/pages/home/photo.jpg" :=
  ⟨(resolve_public_and_relative "/img/test.png" sampleCtx (by decide)).1
      (by decide) (by decide),
   (resolve_public_and_relative "//cdn/img.png" sampleCtx (by decide)).2.1
      (by decide) (by decide),
   (resolve_public_and_relative "photo.jpg" sampleCtx (by decide)).2.2
      (by decide),
   by decide, by decide, by decide⟩

theorem processImage_skip (env : Env) (ctx : Ctx) (n : Node) (st : St)
    (him : isImageNode n = true)
    (h : ∀ s, srcOfImage n = some s → s ∈ st.processed) :
    processImage env ctx n st = (n, st) := by
  cases n with
  | mk t a cs =>
      cases a with
      | none => rfl
      | some o =>
          rcases hobj : objGet o "src" with _ | v
          · simp [processImage, Node.attrs, hobj]
          · cases v with
            | num m => simp [processImage, Node.attrs, hobj]
            | str s =>
                have hs : srcOfImage (Node.mk t (some o) cs) = some s := by
                  simp [srcOfImage, him, Node.attrs, hobj]
                have hmem := h s hs
                simp [processImage, Node.attrs, hobj, hmem]

theorem processNode_skip (env : Env) (ctx : Ctx) : ∀ (n : Node) (st : St),
    (∀ s ∈ imageSrcs n, s ∈ st.processed) →
    processNode env ctx n st = (n, st) := by
  refine processNode.induct env ctx
    (fun n st => (∀ s ∈ imageSrcs n, s ∈ st.processed) →
      processNode env ctx n st = (n, st))
    (fun ns st => (∀ s ∈ imageSrcsList ns, s ∈ st.processed) →
      processNodes env ctx ns st = (ns, st))
    ?_ ?_ ?_
  · intro t a cs st r1 ih h
    have hr1 : r1 = (Node.mk t a cs, st) := by
      show (if isImageNode (Node.mk t a cs) = true
        then processImage env ctx (Node.mk t a cs) st
        else (Node.mk t a cs, st)) = (Node.mk t a cs, st)
      by_cases him : isImageNode (Node.mk t a cs) = true
      · rw [if_pos him]
        refine processImage_skip env ctx _ st him (fun s hs => h s ?_)
        unfold imageSrcs
        rw [hs]
        exact List.mem_append_left _ (List.mem_singleton.mpr rfl)
      · rw [if_neg him]
    rw [hr1] at ih
    have hns : processNodes env ctx cs st = (cs, st) := by
      refine ih (fun s hs => h s ?_)
      unfold imageSrcs
      exact List.mem_append_right _ hs
    have hif : (if isImageNode (Node.mk t a cs) = true
        then processImage env ctx (Node.mk t a cs) st
        else (Node.mk t a cs, st)) = (Node.mk t a cs, st) := hr1
    show processNode env ctx (Node.mk t a cs) st = (Node.mk t a cs, st)
    rw [processNode]
    simp only [hif, hns, Node.attrs]
  · intro st _
    rw [processNodes]
  · intro n ns st r1 ih1 ih2 h
    have hn : processNode env ctx n st = (n, st) := by
      refine ih1 (fun s hs => h s ?_)
      unfold imageSrcsList
      exact List.mem_append_left _ hs
    have hr1 : r1 = (n, st) := hn
    rw [hr1] at ih2
    have hns : processNodes env ctx ns st = (ns, st) := by
      refine ih2 (fun s hs => h s ?_)
      unfold imageSrcsList
      exact List.mem_append_right _ hs
    show processNodes env ctx (n :: ns) st = (n :: ns, st)
    rw [processNodes]
    simp only [hn, hns]

/-- C2: re-running `processContent` over the already-processed document
with the same plugin instance — every image source of the document was
handled by the first pass, so it is in the processed set and available
from the cache — returns the document with byte-identical attributes and
an entirely unchanged plugin state; in particular `ImageProcessor.process`
(the external transcoder) is not invoked at all on the second pass. -/
theorem second_pass_identity (env : Env) (ctx : Ctx) (doc : Option Node)
    (st : St)
    (hproc : ∀ s ∈ doc.elim [] imageSrcs, s ∈ st.processed)
    (hcached : ∀ s ∈ doc.elim [] imageSrcs,
      (cacheHas st.cache env.now ("image:" ++ resolvePublicPath s ctx)).1
        = true) :
    processContent env ctx doc st = (doc, st) ∧
    (processContent env ctx doc st).2.procCount = st.procCount := by
  have key : processContent env ctx doc st = (doc, st) := by
    cases doc with
    | none => rfl
    | some n =>
        by_cases hd : n.type = "doc"
        · simp only [processContent, if_pos hd]
          rw [processNode_skip env ctx n st (by simpa using hproc)]
        · simp [processContent, hd]
  exact ⟨key, by rw [key]⟩

/-- Witness for C2: after one full pass over the five-node document, a
second pass with the same instance is the identity on both the document
and the plugin state. -/
theorem second_pass_identity_witness :
    processContent sampleEnv sampleCtx doc5After st5After
      = (doc5After, st5After) :=
  (second_pass_identity sampleEnv sampleCtx doc5After st5After
    (by decide) (by decide)).1

/-- Counterexample to C1: in one pass over a document with two distinct
image nodes that both carry `src: "/test.jpg"`, the transcoder does run
exactly once and the first node receives the computed attributes, but the
second node exits the pass with its `srcset` (and the rest of the
`ProcessedAttributes`) absent — the process-lifetime `#processed` check
fires before the cache lookup and skips every later distinct node with
the same source, so the nodes do not all carry identical, non-absent
processed attributes. -/
theorem dedup_counterexample :
    pass1.2.procCount = 1 ∧
    objGet ((childAttrs pass1.1 0).getD []) "srcset"
      = some (.str "/images/test-sm.webp 640w") ∧
    objGet ((childAttrs pass1.1 1).getD []) "srcset" = none ∧
    childAttrs pass1.1 1 = some [("src", JVal.str "/test.jpg")] := by
  decide

/-- C1 as amended: for an image node whose string source is neither in
the process-lifetime processed set nor in the cache and whose processing
succeeds, `#processImage` invokes the variant generator exactly once,
installs the full computed `ProcessedAttributes` on the node, caches the
merged attribute object, and appends the source to the processed set; for
an image node whose source is already in the processed set,
`#processImage` returns without invoking the generator and leaves the
node and state unmodified.  Hence in the spec's concrete scenario — five
distinct image nodes all with `src: "/test.jpg"` in one pass from a fresh
instance — the generator is invoked exactly once with no error recorded,
the first node exits carrying the full non-absent `ProcessedAttributes`,
and the four subsequent distinct nodes exit unmodified. -/
theorem dedup_amended :
    (∀ (env : Env) (ctx : Ctx) (t : String) (a : Obj) (cs : List Node)
       (st : St) (src : String) (r : ProcResult),
       objGet a "src" = some (JVal.str src) → src ≠ "" →
       src ∉ st.processed →
       (cacheHas st.cache env.now
         ("image:" ++ resolvePublicPath src ctx)).1 = false →
       process env.fs env.opts (resolvePublicPath src ctx)
         (outDirOf ctx env.opts) = .ok r →
       processImage env ctx (Node.mk t (some a) cs) st =
         (Node.mk t (some (objMerge a
            [("srcset", .str r.srcset), ("sizes", .str r.sizes),
             ("width", .num r.width), ("height", .num r.height),
             ("originalSrc", .str src)])) cs,
          { st with
              cache := cacheSetRaw
                (cacheHas st.cache env.now
                  ("image:" ++ resolvePublicPath src ctx)).2 env.now
                ("image:" ++ resolvePublicPath src ctx)
                (objMerge a
                  [("srcset", .str r.srcset), ("sizes", .str r.sizes),
                   ("width", .num r.width), ("height", .num r.height),
                   ("originalSrc", .str src)]),
              procCount := st.procCount + 1,
              processed := st.processed ++ [src] })) ∧
    (∀ (env : Env) (ctx : Ctx) (t : String) (a : Obj) (cs : List Node)
       (st : St) (src : String),
       objGet a "src" = some (JVal.str src) → src ∈ st.processed →
       processImage env ctx (Node.mk t (some a) cs) st
         = (Node.mk t (some a) cs, st)) ∧
    (pass1.2.procCount = 1 ∧
     pass1.2.errors = [] ∧
     childAttrs pass1.1 0
       = some [("src", JVal.str "/test.jpg"),
               ("srcset", JVal.str "/images/test-sm.webp 640w"),
               ("sizes", JVal.str "(max-width: 640px) 100vw, (max-width: 1024px) 50vw, (max-width: 1920px) 33vw, 100vw"),
               ("width", JVal.num 1920), ("height", JVal.num 1080),
               ("originalSrc", JVal.str "/test.jpg")] ∧
     childAttrs pass1.1 1 = some [("src", JVal.str "/test.jpg")] ∧
     childAttrs pass1.1 2 = some [("src", JVal.str "/test.jpg")] ∧
     childAttrs pass1.1 3 = some [("src", JVal.str "/test.jpg")] ∧
     childAttrs pass1.1 4 = some [("src", JVal.str "/test.jpg")]) := by
  refine ⟨?_, ?_, by decide⟩
  · intro env ctx t a cs st src r hsrc hne hproc hmiss hok
    simp only [processImage, Node.attrs, hsrc]
    have hcond : (decide (src = "") || st.processed.contains src) = false := by
      simp [hne, hproc]
    rw [hcond]
    simp only [Bool.false_eq_true, if_false, hmiss, hok, Node.type, Node.content]
  · intro env ctx t a cs st src hsrc hproc
    simp only [processImage, Node.attrs, hsrc]
    have hcond : (decide (src = "") || st.processed.contains src) = true := by
      simp [hproc]
    rw [hcond]
    simp

/-- Witness for C1 (amended): the first `/test.jpg` node processed from a
fresh instance triggers the single generator invocation and receives the
full attributes; the same node shape processed against the post-pass
state (source already in the processed set) is returned unchanged. -/
theorem dedup_amended_witness :
    processImage sampleEnv sampleCtx
      (Node.mk "image" (some [("src", JVal.str "/test.jpg")]) []) initialSt
      = (Node.mk "image" (some (objMerge [("src", JVal.str "/test.jpg")]
           [("srcset", .str testProcResult.srcset),
            ("sizes", .str testProcResult.sizes),
            ("width", .num testProcResult.width),
            ("height", .num testProcResult.height),
            ("originalSrc", .str "/test.jpg")])) [],
         { initialSt with
             cache := cacheSetRaw
               (cacheHas initialSt.cache sampleEnv.now
                 ("image:" ++ resolvePublicPath "/test.jpg" sampleCtx)).2
               sampleEnv.now
               ("image:" ++ resolvePublicPath "/test.jpg" sampleCtx)
               (objMerge [("src", JVal.str "/test.jpg")]
                 [("srcset", .str testProcResult.srcset),
                  ("sizes", .str testProcResult.sizes),
                  ("width", .num testProcResult.width),
                  ("height", .num testProcResult.height),
                  ("originalSrc", .str "/test.jpg")]),
             procCount := initialSt.procCount + 1,
             processed := initialSt.processed ++ ["/test.jpg"] }) ∧
    processImage sampleEnv sampleCtx
      (Node.mk "image" (some [("src", JVal.str "/test.jpg")]) []) pass1.2
      = (Node.mk "image" (some [("src", JVal.str "/test.jpg")]) [], pass1.2) :=
  ⟨dedup_amended.1 sampleEnv sampleCtx "image" [("src", JVal.str "/test.jpg")]
      [] initialSt "/test.jpg" testProcResult
      (by decide) (by decide) (by decide) (by decide) (by decide),
   dedup_amended.2.1 sampleEnv sampleCtx "image"
      [("src", JVal.str "/test.jpg")] [] pass1.2 "/test.jpg"
      (by decide) (by decide)⟩

/-- C3: when processing an image node fails (the resolved source cannot
be read or has an unsupported type, surfacing as an error from the
generation step), `#processImage` returns the node with its attributes —
including the original `src` — completely unmodified, and appends exactly
one error record `Failed to process image src: detail` to the context's
error collector; in the model the per-node handler is total, so the
enclosing pass cannot throw for a per-image failure, and the accompanying
concrete run shows a document whose first image is missing and whose
second image is still processed successfully with exactly one recorded
error. -/
theorem per_image_failure_isolated :
    (∀ (env : Env) (ctx : Ctx) (t : String) (a : Obj) (cs : List Node)
       (st : St) (src detail : String),
       objGet a "src" = some (JVal.str src) → src ≠ "" →
       src ∉ st.processed →
       (cacheHas st.cache env.now
         ("image:" ++ resolvePublicPath src ctx)).1 = false →
       process env.fs env.opts (resolvePublicPath src ctx)
         (outDirOf ctx env.opts) = .error detail →
       processImage env ctx (Node.mk t (some a) cs) st =
         (Node.mk t (some a) cs,
          { st with
              cache := (cacheHas st.cache env.now
                ("image:" ++ resolvePublicPath src ctx)).2,
              procCount := st.procCount + 1,
              errors := st.errors
                ++ ["Failed to process image " ++ src ++ ": " ++ detail] })) ∧
    (processContent sampleEnv sampleCtx (some docFailGood) initialSt).2.errors
      = ["Failed to process image /missing.png: ENOENT: no such file or directory, open /site/public/missing.png"] ∧
    childAttrs (processContent sampleEnv sampleCtx (some docFailGood) initialSt).1 0
      = some [("src", JVal.str "/missing.png"), ("alt", JVal.str "M")] ∧
    objGet ((childAttrs (processContent sampleEnv sampleCtx (some docFailGood) initialSt).1 1).getD []) "srcset"
      = some (.str "/images/test-sm.webp 640w") := by
  refine ⟨?_, by decide, by decide, by decide⟩
  intro env ctx t a cs st src detail hsrc hne hproc hmiss hfail
  simp only [processImage, Node.attrs, hsrc]
  have hcond : (decide (src = "") || st.processed.contains src) = false := by
    simp [hne, hproc]
  rw [hcond]
  simp only [Bool.false_eq_true, if_false, hmiss, hfail]

/-- Witness for C3: the failing node of the concrete document, processed
in isolation, leaves its attributes untouched and appends exactly the one
expected error record. -/
theorem per_image_failure_isolated_witness :
    processImage sampleEnv sampleCtx
      (Node.mk "image"
        (some [("src", JVal.str "/missing.png"), ("alt", JVal.str "M")]) [])
      initialSt =
      (Node.mk "image"
        (some [("src", JVal.str "/missing.png"), ("alt", JVal.str "M")]) [],
       { initialSt with
           cache := (cacheHas initialSt.cache sampleEnv.now
             ("image:" ++ resolvePublicPath "/missing.png" sampleCtx)).2,
           procCount := initialSt.procCount + 1,
           errors := initialSt.errors
             ++ ["Failed to process image /missing.png: ENOENT: no such file or directory, open /site/public/missing.png"] }) :=
  per_image_failure_isolated.1 sampleEnv sampleCtx "image"
    [("src", JVal.str "/missing.png"), ("alt", JVal.str "M")] [] initialSt
    "/missing.png" "ENOENT: no such file or directory, open /site/public/missing.png"
    (by decide) (by decide) (by decide) (by decide) (by decide)

/-- Counterexample to C6: the pass over two image nodes whose distinct
`src` strings (`a.jpg` and `./a.jpg`) resolve to the same file shows the
cache-hit merge is not limited to the five `ProcessedAttributes` fields —
the second node's `alt` is overwritten with the first node's `alt`
(`"A"` instead of its own `"B"`) and even its `src` is replaced by the
first node's `src`, because the cached value is the first node's full
attribute object. -/
theorem cache_hit_merge_counterexample :
    passAlias.2.procCount = 1 ∧
    objGet ((childAttrs passAlias.1 1).getD []) "alt" = some (JVal.str "A") ∧
    objGet ((childAttrs passAlias.1 1).getD []) "src" = some (JVal.str "a.jpg") := by
  decide

/-- C6 as amended: on a cache hit the node's new attributes are the
spread-merge of its own attributes with the entire cached attribute
object (which holds the originally processing node's full attributes plus
the five computed fields, not the five fields alone): every key absent
from the cached object keeps its pre-merge value, and every key present
in the cached object — computed fields and original attributes such as
`alt` or `src` alike — takes the cached value. -/
theorem cache_hit_merge_semantics (env : Env) (ctx : Ctx) (t : String)
    (a : Obj) (cs : List Node) (st : St) (src : String) (cached : Obj)
    (hsrc : objGet a "src" = some (JVal.str src)) (hne : src ≠ "")
    (hproc : src ∉ st.processed)
    (hhit : cacheGet st.cache env.now ("image:" ++ resolvePublicPath src ctx)
        = (some cached, st.cache)) :
    processImage env ctx (Node.mk t (some a) cs) st
      = (Node.mk t (some (objMerge a cached)) cs, st) ∧
    (∀ k, k ∉ cached.map Prod.fst → objGet (objMerge a cached) k = objGet a k) ∧
    ((cached.map Prod.fst).Nodup →
      ∀ k ∈ cached.map Prod.fst, objGet (objMerge a cached) k = objGet cached k) := by
  refine ⟨?_, fun k hk => objGet_objMerge_not_mem a cached k hk,
    fun hnd k hk => objGet_objMerge_mem a cached k hnd hk⟩
  simp only [processImage, Node.attrs, hsrc]
  have hcond : (decide (src = "") || st.processed.contains src) = false := by
    simp [hne, hproc]
  rw [hcond]
  simp only [Bool.false_eq_true, if_false, cacheHas, hhit, Option.isSome_some,
    if_true, Node.type, Node.content]

/-- Witness for C6 (amended): merging the aliased node against a state
whose cache already holds the first node's full attribute object yields
exactly the spread-merge of the two objects. -/
theorem cache_hit_merge_semantics_witness :
    processImage sampleEnv sampleCtx
      (Node.mk "image"
        (some [("src", JVal.str "./a.jpg"), ("alt", JVal.str "B")]) [])
      stWithAlias
      = (Node.mk "image"
          (some (objMerge [("src", JVal.str "./a.jpg"), ("alt", JVal.str "B")]
            cachedAliasObj)) [],
         stWithAlias) :=
  (cache_hit_merge_semantics sampleEnv sampleCtx "image"
    [("src", JVal.str "./a.jpg"), ("alt", JVal.str "B")] [] stWithAlias
    "./a.jpg" cachedAliasObj (by decide) (by decide) (by decide) (by decide)).1

theorem except_seq_ok_iff (x : Except String Unit) (f : Unit → Except String Unit) :
    (x >>= f) = .ok () ↔ x = .ok () ∧ f () = .ok () := by
  cases x with
  | ok u => cases u; simp [Bind.bind, Except.bind]
  | error e => simp [Bind.bind, Except.bind]

theorem checkQuality_ok_iff (q : Option ℚ) :
    checkQuality q = .ok () ↔ ∀ x, q = some x → 1 ≤ x ∧ x ≤ 100 := by
  cases q with
  | none => simp [checkQuality]
  | some x =>
      by_cases h : x < 1 ∨ x > 100
      · rw [show checkQuality (some x)
            = .error "Quality must be a number between 1 and 100" by
          simp only [checkQuality]; rw [if_pos h]]
        constructor
        · intro hc; exact Except.noConfusion hc
        · intro hall
          rcases h with h | h
          · exact absurd (hall x rfl).1 (not_le.mpr h)
          · exact absurd (hall x rfl).2 (not_le.mpr h)
      · have hn := h
        push_neg at hn
        rw [show checkQuality (some x) = .ok () by
          simp only [checkQuality]; rw [if_neg h]]
        constructor
        · intro _ x2 hx2
          injection hx2 with he
          exact he ▸ ⟨hn.1, hn.2⟩
        · intro _; rfl

theorem checkConcurrency_ok_iff (c : Option ℚ) :
    checkConcurrency c = .ok () ↔ ∀ x, c = some x → 1 ≤ x := by
  cases c with
  | none => simp [checkConcurrency]
  | some x =>
      by_cases h : x < 1
      · rw [show checkConcurrency (some x)
            = .error "Concurrency must be a positive number" by
          simp only [checkConcurrency]; rw [if_pos h]]
        constructor
        · intro hc; exact Except.noConfusion hc
        · intro hall; exact absurd (hall x rfl) (not_le.mpr h)
      · rw [show checkConcurrency (some x) = .ok () by
          simp only [checkConcurrency]; rw [if_neg h]]
        constructor
        · intro _ x2 hx2
          injection hx2 with he
          exact he ▸ not_lt.mp h
        · intro _; rfl

theorem checkSizes_ok_iff (l : List SizeOpt) :
    checkSizes l = .ok () ↔ ∀ s ∈ l,
      (∃ w, s.width = some w ∧ 1 ≤ w) ∧ (∃ x, s.suffix = some x ∧ x ≠ "") := by
  induction l with
  | nil => simp [checkSizes]
  | cons s rest ih =>
      rcases hw : s.width with _ | w
      · simp [checkSizes, truthyNumOpt, hw]
      · rcases hx : s.suffix with _ | x
        · simp [checkSizes, truthyNumOpt, truthyStrOpt, hw, hx]
        · by_cases hx0 : x = ""
          · simp [checkSizes, truthyNumOpt, truthyStrOpt, hw, hx, hx0]
          · by_cases hw0 : w = 0
            · simp [checkSizes, truthyNumOpt, truthyStrOpt, hw, hx, hx0, hw0]
            · by_cases hw1 : w < 1
              · simp [checkSizes, truthyNumOpt, truthyStrOpt, hw, hx, hx0, hw0, hw1]
              · simp only [checkSizes, truthyNumOpt, truthyStrOpt, hw, hx]
                rw [show (!decide (w ≠ 0) || !decide (x ≠ "")) = false by
                  simp [hw0, hx0]]
                rw [if_neg (by simp)]
                rw [if_neg hw1]
                rw [ih]
                constructor
                · intro hall s2 hs2
                  rcases List.mem_cons.mp hs2 with rfl | hs2
                  · exact ⟨⟨w, hw, not_lt.mp hw1⟩, ⟨x, hx, hx0⟩⟩
                  · exact hall s2 hs2
                · intro hall s2 hs2
                  exact hall s2 (List.mem_cons_of_mem s hs2)

theorem checkSizes_error_cases (l : List SizeOpt) :
    checkSizes l = .ok () ∨
    checkSizes l = .error "Each size must have width and suffix" ∨
    checkSizes l = .error "Size width must be a positive number" := by
  induction l with
  | nil => exact Or.inl rfl
  | cons s rest ih =>
      simp only [checkSizes]
      by_cases h1 : (!truthyNumOpt s.width || !truthyStrOpt s.suffix) = true
      · rw [if_pos h1]; exact Or.inr (Or.inl rfl)
      · rw [if_neg h1]
        rcases hw : s.width with _ | w
        · exact Or.inr (Or.inl rfl)
        · by_cases h2 : w < 1
          · exact Or.inr (Or.inr (by simp [h2]))
          · simpa [h2] using ih

theorem validateOptions_errors_named (o : Options) :
    validateOptions o = .ok () ∨
    ∃ m, validateOptions o = .error m ∧
      (m = "outputDir is required" ∨ m = "publicPath is required" ∨
       m = "At least one output format is required" ∨
       (∃ r, m = "Invalid formats: " ++ r) ∨
       m = "Quality must be a number between 1 and 100" ∨
       m = "Each size must have width and suffix" ∨
       m = "Size width must be a positive number" ∨
       m = "Concurrency must be a positive number") := by
  have hconc : ∀ e, checkConcurrency o.concurrency = .error e →
      e = "Concurrency must be a positive number" := by
    intro e hC
    rcases hco : o.concurrency with _ | c
    · rw [hco] at hC
      exact absurd hC (by simp [checkConcurrency])
    · rw [hco] at hC
      by_cases h : c < 1
      · rw [show checkConcurrency (some c)
            = .error "Concurrency must be a positive number" by
          simp only [checkConcurrency]; rw [if_pos h]] at hC
        injection hC with h5
        exact h5.symm
      · rw [show checkConcurrency (some c) = .ok () by
          simp only [checkConcurrency]; rw [if_neg h]] at hC
        exact absurd hC (by simp)
  simp only [validateOptions]
  split_ifs with h1 h2 h3 h4
  · exact Or.inr ⟨_, rfl, Or.inl rfl⟩
  · exact Or.inr ⟨_, rfl, Or.inr (Or.inl rfl)⟩
  · exact Or.inr ⟨_, rfl, Or.inr (Or.inr (Or.inl rfl))⟩
  · exact Or.inr ⟨_, rfl, Or.inr (Or.inr (Or.inr (Or.inl ⟨_, rfl⟩)))⟩
  · cases hQ : checkQuality o.quality with
    | error e =>
        have he : e = "Quality must be a number between 1 and 100" := by
          rcases hqo : o.quality with _ | q
          · rw [hqo] at hQ
            exact absurd hQ (by simp [checkQuality])
          · rw [hqo] at hQ
            by_cases h : q < 1 ∨ q > 100
            · rw [show checkQuality (some q)
                  = .error "Quality must be a number between 1 and 100" by
                simp only [checkQuality]; rw [if_pos h]] at hQ
              injection hQ with h5
              exact h5.symm
            · rw [show checkQuality (some q) = .ok () by
                simp only [checkQuality]; rw [if_neg h]] at hQ
              exact absurd hQ (by simp)
        subst he
        exact Or.inr ⟨_, rfl, Or.inr (Or.inr (Or.inr (Or.inr (Or.inl rfl))))⟩
    | ok u =>
        cases u
        rcases hs : o.sizes with _ | l
        · cases hC : checkConcurrency o.concurrency with
          | error e =>
              have he := hconc e hC
              subst he
              exact Or.inr ⟨_, rfl, Or.inr (Or.inr (Or.inr (Or.inr (Or.inr
                (Or.inr (Or.inr rfl))))))⟩
          | ok u2 =>
              cases u2
              exact Or.inl rfl
        · rcases checkSizes_error_cases l with hS | hS | hS
          · cases hC : checkConcurrency o.concurrency with
            | error e =>
                have he := hconc e hC
                subst he
                refine Or.inr ⟨_, ?_, Or.inr (Or.inr (Or.inr (Or.inr (Or.inr
                  (Or.inr (Or.inr rfl))))))⟩
                show (checkSizes l >>= fun _ =>
                  (Except.error "Concurrency must be a positive number"
                    : Except String Unit))
                  = Except.error "Concurrency must be a positive number"
                rw [hS]
                rfl
            | ok u2 =>
                cases u2
                refine Or.inl ?_
                show (checkSizes l >>= fun _ =>
                  (Except.ok () : Except String Unit)) = Except.ok ()
                rw [hS]
                rfl
          · refine Or.inr ⟨_, ?_, Or.inr (Or.inr (Or.inr (Or.inr (Or.inr
              (Or.inl rfl)))))⟩
            show (checkSizes l >>= fun _ => checkConcurrency o.concurrency)
              = Except.error "Each size must have width and suffix"
            rw [hS]
            rfl
          · refine Or.inr ⟨_, ?_, Or.inr (Or.inr (Or.inr (Or.inr (Or.inr
              (Or.inr (Or.inl rfl))))))⟩
            show (checkSizes l >>= fun _ => checkConcurrency o.concurrency)
              = Except.error "Size width must be a positive number"
            rw [hS]
            rfl

/-- Counterexample to C8: construction accepts an otherwise-valid options
object whose `cacheTimeout` is the negative number -5 — `validateOptions`
never destructures `cacheTimeout` — and likewise accepts the non-integer
quality 50.5 and the non-integer size width 640.5, so the claimed
rejections of non-positive cache timeouts and of non-integer
quality/width values do not happen. -/
theorem validate_options_counterexample :
    validateOptions optsNegTimeout = .ok () ∧
    validateOptions optsNonInteger = .ok () := by
  decide

/-- C8 as amended: validation succeeds exactly when `outputDir` and
`publicPath` are non-empty, `formats` is a non-empty subset of
webp/avif/jpeg/png, any supplied numeric `quality` lies in [1, 100]
(integrality is not required), every supplied size has a width of at
least 1 (not necessarily integral) and a non-empty suffix, and any
supplied `concurrency` is at least 1 — `cacheTimeout` is never examined
(validation is invariant under changing it) — and every failure is an
error whose message names the offending field. -/
theorem validate_options_characterization :
    (∀ o : Options, validateOptions o = .ok () ↔
      (o.outputDir ≠ "" ∧ o.publicPath ≠ "" ∧ o.formats ≠ [] ∧
       (∀ f ∈ o.formats, f ∈ (["webp", "avif", "jpeg", "png"] : List String)) ∧
       (∀ q, o.quality = some q → 1 ≤ q ∧ q ≤ 100) ∧
       (∀ l, o.sizes = some l → ∀ s ∈ l,
         (∃ w, s.width = some w ∧ 1 ≤ w) ∧ (∃ x, s.suffix = some x ∧ x ≠ "")) ∧
       (∀ c, o.concurrency = some c → 1 ≤ c))) ∧
    (∀ (o : Options) (ct1 ct2 : Option ℚ),
       validateOptions { o with cacheTimeout := ct1 }
         = validateOptions { o with cacheTimeout := ct2 }) ∧
    (∀ o : Options, validateOptions o = .ok () ∨
       ∃ m, validateOptions o = .error m ∧
         (m = "outputDir is required" ∨ m = "publicPath is required" ∨
          m = "At least one output format is required" ∨
          (∃ r, m = "Invalid formats: " ++ r) ∨
          m = "Quality must be a number between 1 and 100" ∨
          m = "Each size must have width and suffix" ∨
          m = "Size width must be a positive number" ∨
          m = "Concurrency must be a positive number")) := by
  refine ⟨?_, fun o ct1 ct2 => rfl, fun o => validateOptions_errors_named o⟩
  · intro o
    simp only [validateOptions]
    split_ifs with h1 h2 h3 h4
    · constructor
      · intro hc; exact hc.elim
      · rintro ⟨ha, _⟩; exact absurd h1 ha
    · constructor
      · intro hc; exact hc.elim
      · rintro ⟨_, ha, _⟩; exact absurd h2 ha
    · constructor
      · intro hc; exact hc.elim
      · rintro ⟨_, _, ha, _⟩
        exact absurd (List.isEmpty_iff.mp h3) ha
    · constructor
      · intro hc; exact hc.elim
      · rintro ⟨_, _, _, hvalid, _⟩
        rw [Bool.not_eq_true', List.isEmpty_eq_false_iff_exists_mem] at h4
        obtain ⟨f, hf⟩ := h4
        rw [List.mem_filter] at hf
        have hmem := hvalid f hf.1
        have hf2 := hf.2
        simp only [Bool.not_eq_true'] at hf2
        have hf3 : f ∉ (["webp", "avif", "jpeg", "png"] : List String) := by
          simpa using hf2
        exact absurd hmem hf3
    · rw [except_seq_ok_iff, checkQuality_ok_iff]
      have hvalid : ∀ f ∈ o.formats, f ∈ (["webp", "avif", "jpeg", "png"] : List String) := by
        intro f hf
        by_contra hcon
        apply h4
        rw [Bool.not_eq_true', List.isEmpty_eq_false_iff_exists_mem]
        refine ⟨f, List.mem_filter.mpr ⟨hf, by simp [hcon]⟩⟩
      have hne3 : o.formats ≠ [] := by
        intro hcon
        exact h3 (by simp [hcon])
      rcases hs : o.sizes with _ | l
      · simp only [except_seq_ok_iff, checkConcurrency_ok_iff, pure_bind]
        constructor
        · rintro ⟨hA, hC⟩
          refine ⟨h1, h2, hne3, hvalid, hA, ?_, hC⟩
          intro l2 hl2
          exact Option.noConfusion hl2
        · rintro ⟨_, _, _, _, hA, _, hC⟩
          exact ⟨hA, hC⟩
      · simp only [except_seq_ok_iff, checkSizes_ok_iff, checkConcurrency_ok_iff]
        constructor
        · rintro ⟨hA, hS, hC⟩
          refine ⟨h1, h2, hne3, hvalid, hA, ?_, hC⟩
          intro l2 hl2
          injection hl2 with he
          exact he ▸ hS
        · rintro ⟨_, _, _, _, hA, hS2, hC⟩
          exact ⟨hA, hS2 l rfl, hC⟩

/-- Witness for C8 (amended): a fully valid options object is accepted,
via the characterization. -/
theorem validate_options_characterization_witness :
    validateOptions goodOpts = .ok () := by
  refine (validate_options_characterization.1 goodOpts).mpr
    ⟨by decide, by decide, by decide, by decide, ?_, ?_, ?_⟩
  · intro q hq
    have h80 : q = 80 := by
      have h := (show (some (80 : ℚ) : Option ℚ) = some q from hq)
      injection h with h2
      exact h2.symm
    subst h80
    exact ⟨by norm_num, by norm_num⟩
  · intro l hl
    exact Option.noConfusion (show (none : Option (List SizeOpt)) = some l from hl)
  · intro c hc
    exact Option.noConfusion (show (none : Option ℚ) = some c from hc)
